import Mathlib

/-!
Shallow embedding of the validate package of the twitter-text-go repository
(src/validate/validate.go), together with theorems checking the repository's
specification against it.

Texts are lists of Unicode scalar values (Lean Char), matching Go's iteration
over runes of a string.  Go int arithmetic is embedded as Lean Int with
Int.tdiv for Go's truncating integer division.

Two collaborators of validate.go live outside src/ and are therefore
parameters of the embedding:
- the extraction subsystem (extract.ExtractUrls and friends), passed as a
  function returning the extracted entities;
- the Unicode NFC normalizer (golang.org/x/text norm.NFC), passed as a
  function on rune lists; a small concrete instance modelled from the spec is
  provided for evaluation at concrete inputs.
-/

set_option maxRecDepth 100000

namespace TwitterText

/-! ## Constants from validate.go -/

def currentMaxLength : Int := 280

def maxV1Length : Int := 140

def shortUrlLength : Int := 23

def shortHttpsUrlLength : Int := 23

def defaultWeight : Int := 200

def scale : Int := 100

/-- The blacklist constant invalidChars of validate.go:
U+FFFE, U+FEFF, U+FFFF and the directional controls U+202A..U+202E. -/
def invalidChars : List Char :=
  [Char.ofNat 0xFFFE, Char.ofNat 0xFEFF, Char.ofNat 0xFFFF,
   Char.ofNat 0x202A, Char.ofNat 0x202B, Char.ofNat 0x202C,
   Char.ofNat 0x202D, Char.ofNat 0x202E]

/-! ## The codepoint weight table -/

/-- The weightRange struct of validate.go.  The Go field named end is named
stop here because end is a reserved word in Lean. -/
structure WeightRange where
  start : Int
  stop : Int
  weight : Int

/-- The weightRanges table of validate.go, in table order. -/
def weightRanges : List WeightRange :=
  [⟨0, 4351, 100⟩, ⟨8192, 8205, 100⟩, ⟨8208, 8223, 100⟩, ⟨8242, 8247, 100⟩]

/-- The inner loop of weightedLength: linear scan of the table, first
matching range wins, default weight when no range matches. -/
def rangeWeight : List WeightRange → Char → Int
  | [], _ => defaultWeight
  | r :: rs, c =>
    if r.start ≤ (c.toNat : Int) ∧ (c.toNat : Int) ≤ r.stop then r.weight
    else rangeWeight rs c

/-- Weight of one codepoint per the weightRanges table of validate.go. -/
def charWeight (c : Char) : Int := rangeWeight weightRanges c

/-! ## Collaborators outside src/ -/

/-- A URL entity as returned by the extraction collaborator: the matched
substring and the character length of its range in the original text. -/
structure UrlEntity where
  text : List Char
  rangeLength : Nat

/-- Type of the extraction collaborator extract.ExtractUrls. -/
abbrev UrlExtractor := List Char → List UrlEntity

/-- Modelled from the spec: the extraction collaborator (extract.ExtractUrls,
not under src/) returns the list of URL spans found in the text; on a text
that contains no URL it reports no spans.  This value is its output on
URL-free inputs, used to evaluate the validator at concrete URL-free texts. -/
def extractNoUrls : UrlExtractor := fun _ => []

/-- Type of the NFC normalizer collaborator (norm.NFC), acting on rune
lists. -/
abbrev Normalizer := List Char → List Char

/-- One canonical-composition step of the NFC model: the table fragment of
primary composites used by the concrete model normalizer. -/
def composePair (a b : Char) : Option Char :=
  if a.toNat = 0x0065 ∧ b.toNat = 0x0301 then some (Char.ofNat 0x00E9)
  else if a.toNat = 0x1100 ∧ b.toNat = 0x1161 then some (Char.ofNat 0xAC00)
  else none

/-- Modelled from the spec: the Unicode NFC normalization applied by the
length calculators (the norm.NFC collaborator from golang.org/x/text, not
under src/).  The spec describes NFC as canonical composition of a base
character and a following combining character into the single precomposed
codepoint where one exists.  The model composes the spec's own example pair
U+0065 U+0301 into U+00E9, and the Hangul jamo pair U+1100 U+1161 into the
precomposed syllable U+AC00 (a canonical composition of Unicode NFC); every
other sequence passes through unchanged. -/
def nfcModel : List Char → List Char
  | [] => []
  | [c] => [c]
  | a :: b :: rest =>
    match composePair a b with
    | some c => c :: nfcModel rest
    | none => a :: nfcModel (b :: rest)

/-! ## Length calculators of validate.go -/

def startsWithHttps (t : List Char) : Bool := List.isPrefixOf "https://".data t

/-- The per-codepoint summation loop of weightedLength in validate.go. -/
def sumWeights (l : List Char) : Int := l.foldl (fun acc c => acc + charWeight c) 0

/-- The function weightedLength of validate.go: normalize, then sum the
table weight of every codepoint (no division by the scale here). -/
def weightedLength (nfc : Normalizer) (text : List Char) : Int :=
  sumWeights (nfc text)

/-- The function TweetLength of validate.go: the rune count of the NFC of
the text, with each extracted URL's range length replaced by the fixed
short-URL constant chosen by the https prefix test. -/
def TweetLength (ex : UrlExtractor) (nfc : Normalizer) (text : List Char) : Int :=
  (ex text).foldl
    (fun length url =>
      length - (url.rangeLength : Int) +
        (if startsWithHttps url.text then shortHttpsUrlLength else shortUrlLength))
    ((nfc text).length : Int)

/-- The function adjustedWeighedLength of validate.go: the loop subtracts
each URL's raw weighted sum from the running total and accumulates the fixed
short-URL constants separately; the result is the accumulated constants plus
the remaining total divided by the scale (Go truncating division). -/
def adjustedWeighedLength (ex : UrlExtractor) (nfc : Normalizer) (text : List Char) : Int :=
  let st := (ex text).foldl
    (fun (st : Int × Int) url =>
      (st.1 - weightedLength nfc url.text,
       st.2 + (if startsWithHttps url.text then shortHttpsUrlLength else shortUrlLength)))
    (weightedLength nfc text, 0)
  st.2 + Int.tdiv st.1 scale

/-! ## Validation of validate.go -/

/-- The error sum type of validate.go: EmptyError, TooLongError (carrying
the computed legacy length) and InvalidCharacterError (carrying the decoded
codepoint and its byte offset). -/
inductive ValidationError where
  | empty : ValidationError
  | tooLong (length : Int) : ValidationError
  | invalidCharacter (character : Char) (offset : Nat) : ValidationError
deriving DecidableEq

/-- The combination strings.IndexAny(text, invalidChars) followed by
utf8.DecodeRuneInString used by validateTweet: the first blacklisted
codepoint of the text together with its byte offset.  The second argument
accumulates the byte offset, advancing by the UTF-8 size of each rune. -/
def findInvalidChar : List Char → Nat → Option (Char × Nat)
  | [], _ => none
  | c :: cs, off =>
    if c ∈ invalidChars then some (c, off)
    else findInvalidChar cs (off + c.utf8Size)

/-- The function validateTweet of validate.go: empty check, then legacy
length check against maxLength, then blacklisted-character check. -/
def validateTweet (ex : UrlExtractor) (nfc : Normalizer) (text : List Char)
    (maxLength : Int) : Option ValidationError :=
  if text = [] then some .empty
  else if TweetLength ex nfc text > maxLength then
    some (.tooLong (TweetLength ex nfc text))
  else
    match findInvalidChar text 0 with
    | some ci => some (.invalidCharacter ci.1 ci.2)
    | none => none

/-- The function ValidateTweet of validate.go (the legacy entry point). -/
def ValidateTweet (ex : UrlExtractor) (nfc : Normalizer) (text : List Char) :
    Option ValidationError :=
  validateTweet ex nfc text maxV1Length

/-- The function TweetIsValid of validate.go. -/
def TweetIsValid (ex : UrlExtractor) (nfc : Normalizer) (text : List Char) : Bool :=
  (ValidateTweet ex nfc text).isNone

/-- The Tweet result struct of validate.go. -/
structure Tweet where
  WeightedLength : Int
  Permillage : Int
  Valid : Bool
deriving DecidableEq

/-- The function ParseTweet of validate.go (the newer entry point).  Note
the permillage expression is the literal Go expression
1000 * (length / currentMaxLength) with truncating integer division. -/
def ParseTweet (ex : UrlExtractor) (nfc : Normalizer) (text : List Char) :
    Tweet × Option ValidationError :=
  let length := adjustedWeighedLength ex nfc text
  let err := validateTweet ex nfc text currentMaxLength
  (⟨length, 1000 * Int.tdiv length currentMaxLength, err.isNone⟩, err)

/-! ## Structural validators of validate.go -/

/-- A mention entity as returned by the extraction collaborator: the matched
text and, for list mentions, the list slug (the ok flag of the Go ListSlug
accessor is modelled by the option being some). -/
structure MentionEntity where
  text : List Char
  listSlug : Option (List Char)

/-- The function UsernameIsValid of validate.go, parameterized by the
collaborator extract.ExtractMentionedScreenNames. -/
def UsernameIsValid (ex : List Char → List MentionEntity) (username : List Char) : Bool :=
  if username = [] then false
  else
    match ex username with
    | [e] => decide (e.text = username)
    | _ => false

/-- The function ListIsValid of validate.go, parameterized by the
collaborator extract.ExtractMentionsOrLists. -/
def ListIsValid (ex : List Char → List MentionEntity) (list : List Char) : Bool :=
  if list = [] then false
  else
    match ex list with
    | [e] =>
      match e.listSlug with
      | some _ => decide (e.text = list)
      | none => false
    | _ => false

/-- The function HashtagIsValid of validate.go, parameterized by the
collaborator extract.ExtractHashtags (only the text of each extracted
entity is consulted). -/
def HashtagIsValid (ex : List Char → List (List Char)) (hashtag : List Char) : Bool :=
  if hashtag = [] then false
  else
    match ex hashtag with
    | [t] => decide (t = hashtag)
    | _ => false

/-- The result of regexp FindStringSubmatchIndex on the URL grammar: the
overall match span and the spans of the five captured groups (scheme,
authority, path, query, fragment); a group that did not participate has
span (-1, -1), as in Go. -/
structure ReMatch where
  matchStart : Int
  matchStop : Int
  scheme : Int × Int
  authority : Int × Int
  path : Int × Int
  query : Int × Int
  fragment : Int × Int

/-- Go string slicing url[a:b] on the rune-list embedding of the candidate
(the grammar collaborator reports spans in the same units). -/
def strSlice (l : List Char) (a b : Int) : List Char :=
  (l.take b.toNat).drop a.toNat

/-- Modelled from the spec: the compiled URL grammar patterns consumed by
UrlIsValid (validateUrlUnencodedRe, protocolRe, validateUrlPathRe,
validateUrlQueryRe, validateUrlFragmentRe, validateUrlAuthorityRe and
validateUrlUnicodeAuthorityRe, defined in a repository file not under src/)
as an abstract record: a submatch finder for the overall grammar and one
boolean matcher per component grammar. -/
structure UrlGrammar where
  findMatch : List Char → Option ReMatch
  protocolOk : List Char → Bool
  pathOk : List Char → Bool
  queryOk : List Char → Bool
  fragmentOk : List Char → Bool
  authorityOk : List Char → Bool
  unicodeAuthorityOk : List Char → Bool

/-- The function UrlIsValid of validate.go: empty check, overall grammar
match that must span the whole candidate, then the per-component veto
checks, ending with the authority grammar selected by allowUnicode. -/
def UrlIsValid (g : UrlGrammar) (url : List Char) (requireProtocol allowUnicode : Bool) : Bool :=
  if url = [] then false
  else
    match g.findMatch url with
    | none => false
    | some m =>
      if strSlice url m.matchStart m.matchStop ≠ url then false
      else if requireProtocol && !g.protocolOk (strSlice url m.scheme.1 m.scheme.2) then false
      else if !g.pathOk (strSlice url m.path.1 m.path.2) then false
      else if m.query.1 > 0 && !g.queryOk (strSlice url m.query.1 m.query.2) then false
      else if m.fragment.1 > 0 && !g.fragmentOk (strSlice url m.fragment.1 m.fragment.2) then false
      else if allowUnicode then g.unicodeAuthorityOk (strSlice url m.authority.1 m.authority.2)
      else g.authorityOk (strSlice url m.authority.1 m.authority.2)


/-! ## Helper lemmas about the weight summation -/

theorem weight_foldl_eq (l : List Char) (init : Int) :
    l.foldl (fun acc c => acc + charWeight c) init =
      init + l.foldl (fun acc c => acc + charWeight c) 0 := by
  induction l generalizing init with
  | nil => simp
  | cons c cs ih =>
    rw [List.foldl_cons, List.foldl_cons, ih, ih (0 + charWeight c)]
    ring

theorem sumWeights_foldl (l : List Char) (init : Int) :
    l.foldl (fun acc c => acc + charWeight c) init = init + sumWeights l := by
  unfold sumWeights
  exact weight_foldl_eq l init

theorem sumWeights_cons (c : Char) (l : List Char) :
    sumWeights (c :: l) = charWeight c + sumWeights l := by
  unfold sumWeights
  rw [List.foldl_cons, weight_foldl_eq]
  ring

theorem sumWeights_append (a b : List Char) :
    sumWeights (a ++ b) = sumWeights a + sumWeights b := by
  unfold sumWeights
  rw [List.foldl_append, weight_foldl_eq]

theorem charWeight_pos (c : Char) : 0 < charWeight c := by
  simp only [charWeight, weightRanges, rangeWeight]
  split_ifs <;> norm_num [defaultWeight]

theorem sumWeights_nonneg (l : List Char) : 0 ≤ sumWeights l := by
  induction l with
  | nil => simp [sumWeights]
  | cons c cs ih =>
    rw [sumWeights_cons]
    have := charWeight_pos c
    omega

/-! ## Helper lemmas about the model normalizer -/

theorem composePair_eq_some (a b c : Char) (h : composePair a b = some c) :
    c = Char.ofNat 0x00E9 ∨ c = Char.ofNat 0xAC00 := by
  unfold composePair at h
  split_ifs at h
  · exact Or.inl (Option.some.inj h).symm
  · exact Or.inr (Option.some.inj h).symm

/-- A primary composite never composes with a following character in the
model table. -/
theorem composePair_after_composed (a b c x : Char) (h : composePair a b = some c) :
    composePair c x = none := by
  rcases composePair_eq_some a b c h with hc | hc
  · subst hc
    unfold composePair
    rw [if_neg (fun hh => absurd hh.1 (by decide)),
      if_neg (fun hh => absurd hh.1 (by decide))]
  · subst hc
    unfold composePair
    rw [if_neg (fun hh => absurd hh.1 (by decide)),
      if_neg (fun hh => absurd hh.1 (by decide))]

/-- A primary composite never composes with a preceding character in the
model table. -/
theorem composePair_before_composed (a b c x : Char) (h : composePair a b = some c) :
    composePair x c = none := by
  rcases composePair_eq_some a b c h with hc | hc
  · subst hc
    unfold composePair
    rw [if_neg (fun hh => absurd hh.2 (by decide)),
      if_neg (fun hh => absurd hh.2 (by decide))]
  · subst hc
    unfold composePair
    rw [if_neg (fun hh => absurd hh.2 (by decide)),
      if_neg (fun hh => absurd hh.2 (by decide))]

/-- A list is stable when no two adjacent characters compose. -/
def Stable : List Char → Prop
  | [] => True
  | [_] => True
  | a :: b :: t => composePair a b = none ∧ Stable (b :: t)

theorem stable_cons (c : Char) (t : List Char) (h : Stable t)
    (hc : ∀ x t', t = x :: t' → composePair c x = none) : Stable (c :: t) := by
  cases t with
  | nil => trivial
  | cons x t' => exact ⟨hc x t' rfl, h⟩

theorem nfcModel_of_stable : (l : List Char) → Stable l → nfcModel l = l
  | [], _ => rfl
  | [_], _ => rfl
  | a :: b :: t, ⟨h1, h2⟩ => by
    unfold nfcModel
    rw [h1]
    show a :: nfcModel (b :: t) = a :: b :: t
    rw [nfcModel_of_stable (b :: t) h2]

theorem nfcModel_stable : (l : List Char) → Stable (nfcModel l)
  | [] => trivial
  | [_] => trivial
  | a :: b :: t => by
    unfold nfcModel
    cases hc : composePair a b with
    | some c =>
      refine stable_cons c (nfcModel t) (nfcModel_stable t) ?_
      intro x t' _
      exact composePair_after_composed a b c x hc
    | none =>
      refine stable_cons a (nfcModel (b :: t)) (nfcModel_stable (b :: t)) ?_
      intro x t' hx
      cases t with
      | nil =>
        have hb : x = b := by
          have : ([b] : List Char) = x :: t' := hx
          exact (List.cons.inj this).1.symm
        rw [hb]
        exact hc
      | cons r rs =>
        revert hx
        unfold nfcModel
        cases hr : composePair b r with
        | some c2 =>
          intro hx
          have hxc : x = c2 := ((List.cons.inj hx).1).symm
          rw [hxc]
          exact composePair_before_composed b r c2 a hr
        | none =>
          intro hx
          have hxb : x = b := ((List.cons.inj hx).1).symm
          rw [hxb]
          exact hc

/-- The model normalizer is idempotent, as Unicode normalization is. -/
theorem nfcModel_idem (l : List Char) : nfcModel (nfcModel l) = nfcModel l :=
  nfcModel_of_stable (nfcModel l) (nfcModel_stable l)

/-- Exact success condition of validateTweet. -/
theorem validateTweet_eq_none_iff (ex : UrlExtractor) (nfc : Normalizer)
    (t : List Char) (maxLength : Int) :
    validateTweet ex nfc t maxLength = none ↔
      (t ≠ [] ∧ TweetLength ex nfc t ≤ maxLength ∧ findInvalidChar t 0 = none) := by
  unfold validateTweet
  by_cases h0 : t = []
  · simp [h0]
  · rw [if_neg h0]
    by_cases h1 : TweetLength ex nfc t > maxLength
    · rw [if_pos h1]
      constructor
      · intro h; simp at h
      · rintro ⟨-, h2, -⟩
        exact absurd h1 (not_lt.mpr h2)
    · rw [if_neg h1]
      cases h2 : findInvalidChar t 0 with
      | none => simp [h0, h2, not_lt.mp h1]
      | some ci => simp [h0, h2]

/-! ## Claim theorems -/

/-- C4: the legacy validation applies its checks in the fixed order Empty,
TooLong, InvalidCharacter, and returns exactly the error of the first
failing check: the empty text always yields the Empty error; a nonempty
text whose legacy length exceeds the limit yields TooLong carrying that
length, regardless of any blacklisted characters in it; otherwise the
verdict is decided by the first blacklisted character alone. -/
theorem legacy_check_order (ex : UrlExtractor) (nfc : Normalizer) (t : List Char) :
    ValidateTweet ex nfc [] = some .empty ∧
    (t ≠ [] → maxV1Length < TweetLength ex nfc t →
      ValidateTweet ex nfc t = some (.tooLong (TweetLength ex nfc t))) ∧
    (t ≠ [] → TweetLength ex nfc t ≤ maxV1Length →
      ValidateTweet ex nfc t =
        (findInvalidChar t 0).map (fun ci => .invalidCharacter ci.1 ci.2)) := by
  refine ⟨rfl, ?_, ?_⟩
  · intro h0 h1
    unfold ValidateTweet validateTweet
    rw [if_neg h0, if_pos h1]
  · intro h0 h1
    unfold ValidateTweet validateTweet
    rw [if_neg h0, if_neg (not_lt.mpr h1)]
    cases h2 : findInvalidChar t 0 <;> simp

/-- Witness for legacy_check_order: 141 letters trigger the TooLong check
with the computed length as payload. -/
theorem legacy_check_order_witness :
    ValidateTweet extractNoUrls nfcModel (List.replicate 141 'a') =
      some (.tooLong (TweetLength extractNoUrls nfcModel (List.replicate 141 'a'))) :=
  (legacy_check_order extractNoUrls nfcModel (List.replicate 141 'a')).2.1
    (by decide) (by decide)

/-- C8: 140 plain ASCII letters have legacy length 140, pass the legacy
validation at the boundary-inclusive 140 limit, and have weighted length
140 as well; 141 plain ASCII letters make the legacy validation return
TooLong carrying the computed length 141, not the limit. -/
theorem ascii_boundary_scenarios :
    TweetLength extractNoUrls nfcModel (List.replicate 140 'a') = 140 ∧
    ValidateTweet extractNoUrls nfcModel (List.replicate 140 'a') = none ∧
    adjustedWeighedLength extractNoUrls nfcModel (List.replicate 140 'a') = 140 ∧
    ValidateTweet extractNoUrls nfcModel (List.replicate 141 'a') =
      some (.tooLong 141) := by decide

/-- C9 counterexample: a text that contains U+202E but for which the legacy
validation does not return InvalidCharacter: 141 letters followed by U+202E
exceeds the legacy limit, so the earlier TooLong check wins. -/
theorem invalid_char_after_toolong_cex :
    Char.ofNat 0x202E ∈ List.replicate 141 'a' ++ [Char.ofNat 0x202E] ∧
    ValidateTweet extractNoUrls nfcModel
        (List.replicate 141 'a' ++ [Char.ofNat 0x202E]) =
      some (.tooLong 142) := by decide

/-- C9 (amended): for a nonempty text that passes the legacy length check,
the legacy validation returns InvalidCharacter carrying the first
blacklisted codepoint of the text and its byte offset; U+202E is one of the
blacklisted codepoints, so a text whose first blacklisted codepoint is
U+202E yields InvalidCharacter with character 0x202E at that byte offset. -/
theorem invalid_char_error_payload (ex : UrlExtractor) (nfc : Normalizer)
    (t : List Char) (c : Char) (i : Nat)
    (h0 : t ≠ []) (h1 : TweetLength ex nfc t ≤ maxV1Length)
    (h2 : findInvalidChar t 0 = some (c, i)) :
    ValidateTweet ex nfc t = some (.invalidCharacter c i) ∧
    Char.ofNat 0x202E ∈ invalidChars := by
  refine ⟨?_, by decide⟩
  unfold ValidateTweet validateTweet
  rw [if_neg h0, if_neg (not_lt.mpr h1), h2]

/-- Witness for invalid_char_error_payload: the letter x followed by U+202E
yields InvalidCharacter with the codepoint 0x202E and byte offset 1. -/
theorem invalid_char_error_payload_witness :
    ValidateTweet extractNoUrls nfcModel ['x', Char.ofNat 0x202E] =
      some (.invalidCharacter (Char.ofNat 0x202E) 1) ∧
    Char.ofNat 0x202E ∈ invalidChars :=
  invalid_char_error_payload extractNoUrls nfcModel ['x', Char.ofNat 0x202E]
    (Char.ofNat 0x202E) 1 (by decide) (by decide) (by decide)

/-- C1: evaluation at the failing input.  ParseTweet computes the
permillage as the Go expression 1000 * (length / 280), applying the
truncating division before the multiplication, so a text of weighted
length 140 gets permillage 0, while the specified formula
floor(1000 * weightedLength / 280) gives 500 on the same value. -/
theorem permillage_division_order_eval :
    (ParseTweet extractNoUrls nfcModel (List.replicate 140 'a')).1.WeightedLength = 140 ∧
    (ParseTweet extractNoUrls nfcModel (List.replicate 140 'a')).1.Permillage = 0 ∧
    Int.tdiv
        (1000 * (ParseTweet extractNoUrls nfcModel
          (List.replicate 140 'a')).1.WeightedLength)
        currentMaxLength = 500 := by decide

/-- C2 counterexample: 145 CJK ideographs have weighted length 290, above
the newer 280 limit, yet ParseTweet reports the tweet valid, because the
verdict comes from the legacy unweighted length 145, not from the weighted
length. -/
theorem parse_valid_ignores_weighted_cex :
    (ParseTweet extractNoUrls nfcModel
        (List.replicate 145 (Char.ofNat 0x4E00))).1.WeightedLength = 290 ∧
    currentMaxLength = 280 ∧
    (ParseTweet extractNoUrls nfcModel
        (List.replicate 145 (Char.ofNat 0x4E00))).1.Valid = true := by decide

/-- C2 (amended): ParseTweet obtains both its returned error and its valid
field from the shared helper validateTweet at the newer 280 limit, and that
helper compares the legacy unweighted TweetLength against the limit; the
legacy entry point invokes the same helper at the 140 limit, and neither
entry point calls the other. -/
theorem parse_verdict_uses_legacy_length (ex : UrlExtractor) (nfc : Normalizer)
    (t : List Char) :
    (ParseTweet ex nfc t).2 = validateTweet ex nfc t currentMaxLength ∧
    ValidateTweet ex nfc t = validateTweet ex nfc t maxV1Length ∧
    ((ParseTweet ex nfc t).1.Valid = true ↔
      (t ≠ [] ∧ TweetLength ex nfc t ≤ currentMaxLength ∧
        findInvalidChar t 0 = none)) := by
  refine ⟨rfl, rfl, ?_⟩
  show (validateTweet ex nfc t currentMaxLength).isNone = true ↔ _
  rw [Option.isNone_iff_eq_none]
  exact validateTweet_eq_none_iff ex nfc t currentMaxLength

/-- C3: with one URL span reported by the collaborator, the adjustment pass
subtracts the URL's own raw pre-division weighted sum from the total
weighted sum, divides the remainder by the scale, and adds the fixed
short-URL constant selected by the https prefix test directly, outside the
division; the result depends on the URL only through that prefix test, not
on its length or content.  The hypothesis states that normalization does
not interact across the span boundaries. -/
theorem url_substitution_closed_form (nfc : Normalizer) (p u s : List Char)
    (rlen : Nat) (h : nfc (p ++ u ++ s) = nfc p ++ nfc u ++ nfc s) :
    adjustedWeighedLength (fun _ => [⟨u, rlen⟩]) nfc (p ++ u ++ s) =
      (if startsWithHttps u then shortHttpsUrlLength else shortUrlLength) +
        Int.tdiv (weightedLength nfc p + weightedLength nfc s) scale := by
  show (0 + (if startsWithHttps u then shortHttpsUrlLength else shortUrlLength)) +
      Int.tdiv (weightedLength nfc (p ++ u ++ s) - weightedLength nfc u) scale = _
  unfold weightedLength
  rw [h, sumWeights_append, sumWeights_append, zero_add]
  congr 1
  congr 1
  ring

/-- Witness for url_substitution_closed_form: a plain-http URL embedded
after a four-letter preamble gets the 23-character constant plus the
scaled weight of the surrounding text. -/
theorem url_substitution_closed_form_witness :
    adjustedWeighedLength (fun _ => [⟨"http://example.com".data, 18⟩]) id
        ("see ".data ++ "http://example.com".data ++ []) =
      (if startsWithHttps "http://example.com".data then shortHttpsUrlLength
        else shortUrlLength) +
        Int.tdiv (weightedLength id "see ".data + weightedLength id ([] : List Char))
          scale :=
  url_substitution_closed_form id "see ".data "http://example.com".data [] 18 rfl

/-- C6 counterexample: in the two-character text U+1100 'a', replacing the
letter 'a' (table weight 100) by U+1161 (table weight 200, strictly
higher) triggers the Hangul canonical composition under the normalization,
and both the raw weighted sum and the adjusted weighted length strictly
decrease. -/
theorem weight_replacement_decreases_cex :
    charWeight 'a' < charWeight (Char.ofNat 0x1161) ∧
    weightedLength nfcModel [Char.ofNat 0x1100, Char.ofNat 0x1161] <
      weightedLength nfcModel [Char.ofNat 0x1100, 'a'] ∧
    adjustedWeighedLength extractNoUrls nfcModel
        [Char.ofNat 0x1100, Char.ofNat 0x1161] <
      adjustedWeighedLength extractNoUrls nfcModel [Char.ofNat 0x1100, 'a'] := by
  decide

/-- C6 (amended): when the normalization leaves both texts unchanged (the
replacement does not create or destroy a canonically composing pair),
replacing a single codepoint with one of strictly higher table weight never
decreases the weighted length. -/
theorem weight_monotone_of_stable_texts (nfc : Normalizer) (p s : List Char)
    (c c' : Char)
    (h1 : nfc (p ++ c :: s) = p ++ c :: s) (h2 : nfc (p ++ c' :: s) = p ++ c' :: s)
    (hw : charWeight c < charWeight c') :
    weightedLength nfc (p ++ c :: s) ≤ weightedLength nfc (p ++ c' :: s) := by
  unfold weightedLength
  rw [h1, h2, sumWeights_append, sumWeights_append, sumWeights_cons, sumWeights_cons]
  omega

/-- Witness for weight_monotone_of_stable_texts: replacing the letter 'a'
by the heavier U+1100 in a one-character text. -/
theorem weight_monotone_of_stable_texts_witness :
    weightedLength id ([] ++ 'a' :: []) ≤
      weightedLength id ([] ++ Char.ofNat 0x1100 :: []) :=
  weight_monotone_of_stable_texts id [] [] 'a' (Char.ofNat 0x1100) rfl rfl (by decide)

/-- C7: the weighted length calculator is invariant under the normalization
it applies: measuring the normalized text gives the same weighted sum as
measuring the original, because normalization is idempotent. -/
theorem weighted_length_nfc_invariant (nfc : Normalizer)
    (hidem : ∀ l, nfc (nfc l) = nfc l) (s : List Char) :
    weightedLength nfc (nfc s) = weightedLength nfc s := by
  unfold weightedLength
  rw [hidem]

/-- Witness for weighted_length_nfc_invariant at the spec's own example: a
base letter e followed by the combining acute accent, which the model
normalizer composes into the precomposed letter. -/
theorem weighted_length_nfc_invariant_witness :
    weightedLength nfcModel (nfcModel ['e', Char.ofNat 0x301]) =
      weightedLength nfcModel ['e', Char.ofNat 0x301] :=
  weighted_length_nfc_invariant nfcModel nfcModel_idem ['e', Char.ofNat 0x301]

/-- C5: the URL validator rejects every candidate on which the overall
grammar has no match, and every candidate on which the match does not span
the entire input; hence a valid URL occurring only as a proper prefix or
substring of the candidate is rejected. -/
theorem url_full_span_veto (g : UrlGrammar) (url : List Char) (rp au : Bool) :
    (g.findMatch url = none → UrlIsValid g url rp au = false) ∧
    (∀ m, g.findMatch url = some m →
      strSlice url m.matchStart m.matchStop ≠ url →
      UrlIsValid g url rp au = false) := by
  constructor
  · intro h
    unfold UrlIsValid
    by_cases h0 : url = []
    · rw [if_pos h0]
    · rw [if_neg h0, h]
  · intro m hm hs
    unfold UrlIsValid
    by_cases h0 : url = []
    · rw [if_pos h0]
    · rw [if_neg h0, hm]
      show (if strSlice url m.matchStart m.matchStop ≠ url then false else _) = false
      rw [if_pos hs]

/-- Witness for url_full_span_veto: a grammar instance whose overall match
covers only the first 12 characters of the 20-character candidate, which is
rejected even though every component matcher accepts. -/
theorem url_full_span_veto_witness :
    UrlIsValid
      ⟨fun _ => some ⟨0, 12, (0, 4), (7, 12), (12, 12), (-1, -1), (-1, -1)⟩,
        fun _ => true, fun _ => true, fun _ => true, fun _ => true,
        fun _ => true, fun _ => true⟩
      "http://a.com garbage".data true false = false :=
  (url_full_span_veto
      ⟨fun _ => some ⟨0, 12, (0, 4), (7, 12), (12, 12), (-1, -1), (-1, -1)⟩,
        fun _ => true, fun _ => true, fun _ => true, fun _ => true,
        fun _ => true, fun _ => true⟩
      "http://a.com garbage".data true false).2
    ⟨0, 12, (0, 4), (7, 12), (12, 12), (-1, -1), (-1, -1)⟩ rfl (by decide)

/-- C10: each structural validator returns false on the empty string before
consulting its collaborator, whatever the extraction or grammar
collaborator would answer. -/
theorem validators_reject_empty (exM exL : List Char → List MentionEntity)
    (exH : List Char → List (List Char)) (g : UrlGrammar) (rp au : Bool) :
    UsernameIsValid exM [] = false ∧ ListIsValid exL [] = false ∧
    HashtagIsValid exH [] = false ∧ UrlIsValid g [] rp au = false :=
  ⟨rfl, rfl, rfl, rfl⟩

end TwitterText
